import Mathlib

/-!
Verification of the auto-complete scraper (`src/app.py`).

The Python source is shallowly embedded below:

* `generate_variants` mirrors the pure variant-generation function.  The
  Python code accumulates variants in a `set`; the embedding accumulates the
  same strings, in source order, and removes duplicates with `List.dedup`
  (membership and cardinality coincide with the Python set; enumeration
  order of a Python `set` is unspecified, here it is a fixed stable order).
* `fetch_suggestions` mirrors the HTTP fetch.  The external provider is
  abstracted as an `Oracle`: a function from `(query, lang, gl)` to either a
  transport/parse failure (`Except.error`) or a decoded JSON array, modelled
  as a list whose element at index 1 (if any) is the suggestion list.
* `run_scraper` mirrors the collector loop, threading the `seen` key set,
  the accumulated rows, and (for observability) the trace of issued
  fetches as explicit state.
* `parse_seeds` / `run_scraper_button` mirror the module-level button
  handler that trims and filters the seed lines and rejects an empty list
  before invoking the collector.

`pySplit` embeds Python's `str.split(sep)` for a one-character separator and
`pyStrip` embeds Python's `str.strip()` whitespace trimming.
-/

namespace Scraper

/-- The 26 lowercase letters as one-character strings (`ALPHABET` in the source). -/
def ALPHABET : List String := "abcdefghijklmnopqrstuvwxyz".data.map (fun c => String.mk [c])

/-- The fixed 13 question words (`QUESTION_WORDS` in the source). -/
def QUESTION_WORDS : List String :=
  ["how", "what", "why", "when", "where", "who", "which", "can", "should", "will", "do", "does", "is"]

/-- The connectors list `['']` from the source (`CONNECTORS`). -/
def CONNECTORS : List String := [""]

/-- Split a character list at every occurrence of `c`, keeping empty pieces:
the semantics of Python's `str.split(c)` for a single-character separator. -/
def splitChar (c : Char) : List Char → List (List Char)
  | [] => [[]]
  | a :: as =>
    match splitChar c as with
    | [] => [[a]]
    | g :: gs => if a = c then [] :: g :: gs else (a :: g) :: gs

/-- Python `s.split(c)` for a one-character separator `c`. -/
def pySplit (c : Char) (s : String) : List String :=
  (splitChar c s.data).map (fun cs => String.mk cs)

/-- Python's notion of whitespace for `str.strip()`. -/
def isPySpace (c : Char) : Bool :=
  c = ' ' || c = '\t' || c = '\n' || c = '\r' || c = '\x0b' || c = '\x0c'

/-- Python `s.strip()`: remove leading and trailing whitespace. -/
def pyStrip (s : String) : String :=
  String.mk (((s.data.dropWhile isPySpace).reverse.dropWhile isPySpace).reverse)

/-- The variants contributed by one letter inside the `if use_letters` block of
`generate_variants` (plain positions first, then the wildcard+letter combos). -/
def letterVariants (seed : String) (useWildcards usePre useInf useSuf : Bool)
    (letter : String) : List String :=
  (if usePre then [letter ++ " " ++ seed] else [])
  ++ (if useSuf then [seed ++ " " ++ letter] else [])
  ++ (if useInf then
        (if 1 < (pySplit ' ' seed).length then
          [(pySplit ' ' seed).head! ++ " " ++ letter ++ " "
            ++ String.intercalate " " (pySplit ' ' seed).tail]
         else [])
      else [])
  ++ (if useWildcards then
        (if useSuf then [seed ++ "*" ++ letter, seed ++ " " ++ letter ++ "*"] else [])
        ++ (if usePre then [letter ++ "*" ++ seed, letter ++ " *" ++ seed] else [])
        ++ (if useInf then
              (if 1 < (pySplit ' ' seed).length then
                [(pySplit ' ' seed).head! ++ "*" ++ letter ++ " "
                   ++ String.intercalate " " (pySplit ' ' seed).tail,
                 (pySplit ' ' seed).head! ++ " " ++ letter ++ "*"
                   ++ String.intercalate " " (pySplit ' ' seed).tail]
               else [])
            else [])
      else [])

/-- The variants contributed by the stand-alone `if use_wildcards` block. -/
def wildcardVariants (seed : String) (usePre useInf useSuf : Bool) : List String :=
  (if usePre then ["* " ++ seed] else [])
  ++ (if useSuf then [seed ++ " *"] else [])
  ++ (if useInf then
        (if 1 < (pySplit ' ' seed).length then
          [(pySplit ' ' seed).head! ++ " * " ++ String.intercalate " " (pySplit ' ' seed).tail]
         else [])
      else [])

/-- The variants contributed by one question word inside the `if use_questions`
block (connector loop first, then the wildcard+question combos). -/
def questionVariants (seed : String) (useWildcards usePre useSuf : Bool)
    (qw : String) : List String :=
  (CONNECTORS.flatMap (fun conn =>
    (if usePre then [qw ++ conn ++ seed] else [])
    ++ (if useSuf then [seed ++ conn ++ qw] else [])))
  ++ (if useWildcards then
        (if useSuf then [seed ++ "*" ++ qw, seed ++ " " ++ qw ++ "*"] else [])
        ++ (if usePre then [qw ++ "*" ++ seed, qw ++ " *" ++ seed] else [])
      else [])

/-- Embedding of `generate_variants` from the source: the base seed plus every enabled
variant, with set semantics realised by `List.dedup`. -/
def generate_variants (seed : String)
    (useLetters useWildcards useQuestions usePre useInf useSuf : Bool) : List String :=
  ([seed]
   ++ (if useLetters then
        ALPHABET.flatMap (letterVariants seed useWildcards usePre useInf useSuf) else [])
   ++ (if useWildcards then wildcardVariants seed usePre useInf useSuf else [])
   ++ (if useQuestions then
        QUESTION_WORDS.flatMap (questionVariants seed useWildcards usePre useSuf) else [])).dedup

/-- The external suggestion provider: `(query, lang, gl)` to either a failure
or the decoded JSON array (only index 1, the suggestion list, is relevant). -/
def Oracle : Type := String → String → String → Except String (List (List String))

/-- Embedding of `fetch_suggestions` from the source: on any failure return `[]`; on a
decoded array return element 1 when the array is long enough, else `[]`. -/
def fetch_suggestions (oracle : Oracle) (query lang gl : String) : List String :=
  match oracle query lang gl with
  | Except.error _ => []
  | Except.ok data => if 1 < data.length then data.getD 1 [] else []

/-- One output row, with the four fields of the dict appended by
`run_scraper`, in source order: seed, variant, query_sent, suggestion. -/
structure Row where
  seed : String
  variant : String
  query_sent : String
  suggestion : String
  deriving DecidableEq, Repr

/-- The dedup key `f"{seed}|||{suggestion}"` of a row. -/
def rowKey (r : Row) : String := r.seed ++ "|||" ++ r.suggestion

/-- Collector state: the `seen` key set, the accumulated rows
(`all_results`), and the trace of `(seed, variant)` fetches issued. -/
structure ScrapeState where
  seen : List String
  results : List Row
  trace : List (String × String)
  deriving DecidableEq, Repr

/-- The body of `for suggestion in suggestions`: skip when the key
`f"{seed}|||{suggestion}"` is already seen, else record key and row. -/
def recordSuggestion (seed variant : String) (st : ScrapeState) (suggestion : String) :
    ScrapeState :=
  if seed ++ "|||" ++ suggestion ∈ st.seen then st
  else
    { st with
      seen := st.seen ++ [seed ++ "|||" ++ suggestion],
      results := st.results ++ [⟨seed, variant, variant, suggestion⟩] }

/-- The `for variant in variants` loop of `run_scraper`: stop as soon as
`count` reaches `max_per_variant`, otherwise fetch, fold the suggestions into
the state, log the fetch in the trace, and continue with `count + 1`. -/
def scrapeVariants (oracle : Oracle) (lang gl seed : String) (maxPV : Nat) :
    List String → Nat → ScrapeState → ScrapeState
  | [], _, st => st
  | v :: vs, count, st =>
    if maxPV ≤ count then st
    else
      scrapeVariants oracle lang gl seed maxPV vs (count + 1)
        { (fetch_suggestions oracle v lang gl).foldl (recordSuggestion seed v) st with
          trace := ((fetch_suggestions oracle v lang gl).foldl (recordSuggestion seed v) st).trace
            ++ [(seed, v)] }

/-- Embedding of `run_scraper` from the source: process the seeds in order, starting from
the empty `seen` set and empty result list. -/
def run_scraper (oracle : Oracle) (seeds_list : List String) (lang gl : String) (maxPV : Nat)
    (useLetters useWildcards useQuestions usePre useInf useSuf : Bool) : ScrapeState :=
  seeds_list.foldl
    (fun st seed =>
      scrapeVariants oracle lang gl seed maxPV
        (generate_variants seed useLetters useWildcards useQuestions usePre useInf useSuf) 0 st)
    ⟨[], [], []⟩

/-- The seed-line parsing `[s.strip() for s in seeds_input.split(chr(10)) if s.strip()]`
from the button handler. -/
def parse_seeds (seeds_input : String) : List String :=
  ((pySplit '\n' seeds_input).map pyStrip).filter (fun s => s != "")

/-- The module-level Run Scraper button handler: reject (`none`, no collector
call, no fetch) when no seeds remain after trimming, else run the scraper. -/
def run_scraper_button (oracle : Oracle) (seeds_input lang gl : String) (maxPV : Nat)
    (useLetters useWildcards useQuestions usePre useInf useSuf : Bool) : Option ScrapeState :=
  if parse_seeds seeds_input = [] then Option.none
  else Option.some (run_scraper oracle (parse_seeds seeds_input) lang gl maxPV
    useLetters useWildcards useQuestions usePre useInf useSuf)

/-- Replace an oracle by one that never fails and always answers with exactly
the suggestion list the original fetch would deliver. -/
def okWrap (oracle : Oracle) : Oracle :=
  fun q l g => Except.ok [[], fetch_suggestions oracle q l g]

/-- A concrete always-succeeding oracle used in witnesses. -/
def oracle0 : Oracle := fun _ _ _ => Except.ok [["ignored"], ["s1", "s2"]]

/-- A concrete always-failing oracle used in witnesses. -/
def errOracle : Oracle := fun _ _ _ => Except.error "boom"

/-- A concrete oracle realising a dedup-key collision between the pairs
("a", "b|||c") and ("a|||b", "c"). -/
def cxOracle : Oracle := fun q _ _ =>
  if q = "a" then Except.ok [[], ["b|||c"]]
  else if q = "a|||b" then Except.ok [[], ["c"]]
  else Except.ok [[], []]

end Scraper

namespace Scraper

lemma trace_foldl_record (seed v : String) :
    ∀ (sugs : List String) (st : ScrapeState),
      (sugs.foldl (recordSuggestion seed v) st).trace = st.trace := by
  intro sugs
  induction sugs with
  | nil => intro st; rfl
  | cons s ss ih =>
    intro st
    rw [List.foldl_cons, ih]
    unfold recordSuggestion
    split <;> rfl

lemma scrapeVariants_trace (oracle : Oracle) (lang gl seed : String) (maxPV : Nat) :
    ∀ (variants : List String) (count : Nat) (st : ScrapeState),
      ∃ new, (scrapeVariants oracle lang gl seed maxPV variants count st).trace
          = st.trace ++ new
        ∧ new.length = min variants.length (maxPV - count)
        ∧ ∀ p ∈ new, p.1 = seed := by
  intro variants
  induction variants with
  | nil =>
    intro count st
    exact ⟨[], by simp [scrapeVariants], by simp, by simp⟩
  | cons v vs ih =>
    intro count st
    by_cases h : maxPV ≤ count
    · refine ⟨[], by simp [scrapeVariants, h], by simp; omega, by simp⟩
    · obtain ⟨new, hnew, hlen, htag⟩ := ih (count + 1)
        { (fetch_suggestions oracle v lang gl).foldl (recordSuggestion seed v) st with
          trace := ((fetch_suggestions oracle v lang gl).foldl (recordSuggestion seed v) st).trace
            ++ [(seed, v)] }
      refine ⟨(seed, v) :: new, ?_, ?_, ?_⟩
      · rw [show scrapeVariants oracle lang gl seed maxPV (v :: vs) count st
            = scrapeVariants oracle lang gl seed maxPV vs (count + 1)
                { (fetch_suggestions oracle v lang gl).foldl (recordSuggestion seed v) st with
                  trace := ((fetch_suggestions oracle v lang gl).foldl
                      (recordSuggestion seed v) st).trace ++ [(seed, v)] }
            from by rw [scrapeVariants]; rw [if_neg h]]
        rw [hnew]
        simp [trace_foldl_record]
      · simp only [List.length_cons, hlen]
        omega
      · intro p hp
        rcases List.mem_cons.mp hp with h1 | h2
        · rw [h1]
        · exact htag p h2

lemma run_trace_decomp (oracle : Oracle) (lang gl : String) (maxPV : Nat)
    (uL uW uQ uP uI uS : Bool) :
    ∀ (seeds : List String) (st : ScrapeState),
      ∃ new,
        (seeds.foldl
          (fun st seed =>
            scrapeVariants oracle lang gl seed maxPV
              (generate_variants seed uL uW uQ uP uI uS) 0 st) st).trace
          = st.trace ++ new
        ∧ (∀ p ∈ new, p.1 ∈ seeds)
        ∧ (seeds.Nodup → ∀ s ∈ seeds,
            (new.filter (fun p => p.1 == s)).length
              = min (generate_variants s uL uW uQ uP uI uS).length maxPV) := by
  intro seeds
  induction seeds with
  | nil =>
    intro st
    exact ⟨[], by simp, by simp, by simp⟩
  | cons s0 rest ih =>
    intro st
    obtain ⟨new0, hnew0, hlen0, htag0⟩ :=
      scrapeVariants_trace oracle lang gl s0 maxPV
        (generate_variants s0 uL uW uQ uP uI uS) 0 st
    obtain ⟨new1, hnew1, htags1, hcount1⟩ :=
      ih (scrapeVariants oracle lang gl s0 maxPV
            (generate_variants s0 uL uW uQ uP uI uS) 0 st)
    refine ⟨new0 ++ new1, ?_, ?_, ?_⟩
    · rw [List.foldl_cons, hnew1, hnew0, List.append_assoc]
    · intro p hp
      rcases List.mem_append.mp hp with h1 | h2
      · exact List.mem_cons.mpr (Or.inl (htag0 p h1))
      · exact List.mem_cons.mpr (Or.inr (htags1 p h2))
    · intro hnd s hs
      have hnd' := List.nodup_cons.mp hnd
      rw [List.filter_append, List.length_append]
      rcases List.mem_cons.mp hs with hcase | hcase
      · have e0 : new0.filter (fun p => p.1 == s) = new0 := by
          apply List.filter_eq_self.mpr
          intro a ha
          exact beq_iff_eq.mpr (by rw [htag0 a ha, hcase])
        have e1 : new1.filter (fun p => p.1 == s) = [] := by
          apply List.filter_eq_nil_iff.mpr
          intro a ha hbeq
          have : a.1 ∈ rest := htags1 a ha
          rw [beq_iff_eq.mp hbeq, hcase] at this
          exact hnd'.1 this
        rw [e0, e1, hlen0, hcase]
        simp
      · have e0 : new0.filter (fun p => p.1 == s) = [] := by
          apply List.filter_eq_nil_iff.mpr
          intro a ha hbeq
          apply hnd'.1
          have hse : s0 = s := (htag0 a ha).symm.trans (beq_iff_eq.mp hbeq)
          rw [hse]
          exact hcase
        rw [e0, hcount1 hnd'.2 s hcase]
        simp

/-- C1: in any run, for any seed of the (duplicate-free) seed list, the
number of fetch invocations issued for that seed equals
`min (number of generated variants) max_per_variant`; in particular it never
exceeds `max_per_variant`. -/
theorem fetch_count_eq_min (oracle : Oracle) (seeds : List String) (lang gl : String)
    (maxPV : Nat) (uL uW uQ uP uI uS : Bool) (hnd : seeds.Nodup) (s : String)
    (hs : s ∈ seeds) :
    (((run_scraper oracle seeds lang gl maxPV uL uW uQ uP uI uS).trace.filter
        (fun p => p.1 == s)).length
      = min (generate_variants s uL uW uQ uP uI uS).length maxPV)
    ∧ (((run_scraper oracle seeds lang gl maxPV uL uW uQ uP uI uS).trace.filter
        (fun p => p.1 == s)).length ≤ maxPV) := by
  obtain ⟨new, hnew, htags, hcount⟩ :=
    run_trace_decomp oracle lang gl maxPV uL uW uQ uP uI uS seeds ⟨[], [], []⟩
  have hrun : (run_scraper oracle seeds lang gl maxPV uL uW uQ uP uI uS).trace = new := by
    rw [run_scraper, hnew]
    rfl
  rw [hrun, hcount hnd s hs]
  exact ⟨rfl, Nat.min_le_right _ _⟩

/-- Witness for C1 at a concrete run. -/
theorem fetch_count_eq_min_witness :
    (((run_scraper oracle0 ["hey"] "en" "US" 3 false false false false false false).trace.filter
        (fun p => p.1 == "hey")).length
      = min (generate_variants "hey" false false false false false false).length 3)
    ∧ (((run_scraper oracle0 ["hey"] "en" "US" 3 false false false false false false).trace.filter
        (fun p => p.1 == "hey")).length ≤ 3) :=
  fetch_count_eq_min oracle0 ["hey"] "en" "US" 3 false false false false false false
    (by decide) "hey" (by decide)

end Scraper

namespace Scraper

/-- Collector state invariant: the `seen` set is exactly the keys of the
accumulated rows, it holds no duplicates, and each row echoes its variant in
`query_sent`. -/
def GoodState (st : ScrapeState) : Prop :=
  st.seen = st.results.map rowKey ∧ st.seen.Nodup
    ∧ ∀ r ∈ st.results, r.query_sent = r.variant

/-- Every suggestion delivered for a traced fetch has its key in `seen`. -/
def TraceComplete (oracle : Oracle) (lang gl : String) (st : ScrapeState) : Prop :=
  ∀ p ∈ st.trace, ∀ sug ∈ fetch_suggestions oracle p.2 lang gl,
    p.1 ++ "|||" ++ sug ∈ st.seen

lemma recordSuggestion_good (seed v sug : String) (st : ScrapeState) (h : GoodState st) :
    GoodState (recordSuggestion seed v st sug) := by
  obtain ⟨h1, h2, h3⟩ := h
  unfold recordSuggestion
  split
  · exact ⟨h1, h2, h3⟩
  · rename_i hnot
    refine ⟨?_, ?_, ?_⟩
    · simp only [List.map_append, List.map_cons, List.map_nil]
      rw [h1]
      rfl
    · rw [List.nodup_append]
      exact ⟨h2, List.nodup_singleton _,
        fun a ha hb => hnot (by rwa [List.mem_singleton.mp hb] at ha)⟩
    · intro r hr
      rcases List.mem_append.mp hr with hold | hnew
      · exact h3 r hold
      · rw [List.mem_singleton.mp hnew]

lemma recordSuggestion_seen_mono (seed v sug k : String) (st : ScrapeState)
    (h : k ∈ st.seen) : k ∈ (recordSuggestion seed v st sug).seen := by
  unfold recordSuggestion
  split
  · exact h
  · exact List.mem_append.mpr (Or.inl h)

lemma recordSuggestion_key_mem (seed v sug : String) (st : ScrapeState) :
    seed ++ "|||" ++ sug ∈ (recordSuggestion seed v st sug).seen := by
  unfold recordSuggestion
  split
  · assumption
  · exact List.mem_append.mpr (Or.inr (List.mem_singleton.mpr rfl))

lemma foldl_record_good (seed v : String) :
    ∀ (sugs : List String) (st : ScrapeState), GoodState st →
      GoodState (sugs.foldl (recordSuggestion seed v) st) := by
  intro sugs
  induction sugs with
  | nil => intro st h; exact h
  | cons s ss ih =>
    intro st h
    rw [List.foldl_cons]
    exact ih _ (recordSuggestion_good seed v s st h)

lemma foldl_record_seen_mono (seed v k : String) :
    ∀ (sugs : List String) (st : ScrapeState), k ∈ st.seen →
      k ∈ (sugs.foldl (recordSuggestion seed v) st).seen := by
  intro sugs
  induction sugs with
  | nil => intro st h; exact h
  | cons s ss ih =>
    intro st h
    rw [List.foldl_cons]
    exact ih _ (recordSuggestion_seen_mono seed v s k st h)

lemma foldl_record_key_mem (seed v : String) :
    ∀ (sugs : List String) (st : ScrapeState) (sug : String), sug ∈ sugs →
      seed ++ "|||" ++ sug ∈ (sugs.foldl (recordSuggestion seed v) st).seen := by
  intro sugs
  induction sugs with
  | nil => intro st sug h; exact absurd h (List.not_mem_nil sug)
  | cons s ss ih =>
    intro st sug h
    rw [List.foldl_cons]
    rcases List.mem_cons.mp h with he | hm
    · rw [he]
      exact foldl_record_seen_mono seed v _ ss _ (recordSuggestion_key_mem seed v s st)
    · exact ih _ sug hm

lemma scrapeVariants_seen_mono (oracle : Oracle) (lang gl seed : String) (maxPV : Nat) :
    ∀ (variants : List String) (count : Nat) (st : ScrapeState) (k : String),
      k ∈ st.seen → k ∈ (scrapeVariants oracle lang gl seed maxPV variants count st).seen := by
  intro variants
  induction variants with
  | nil => intro count st k h; exact h
  | cons v vs ih =>
    intro count st k h
    rw [scrapeVariants]
    split
    · exact h
    · exact ih (count + 1) _ k (foldl_record_seen_mono seed v k _ st h)

lemma scrapeVariants_good (oracle : Oracle) (lang gl seed : String) (maxPV : Nat) :
    ∀ (variants : List String) (count : Nat) (st : ScrapeState), GoodState st →
      GoodState (scrapeVariants oracle lang gl seed maxPV variants count st) := by
  intro variants
  induction variants with
  | nil => intro count st h; exact h
  | cons v vs ih =>
    intro count st h
    rw [scrapeVariants]
    split
    · exact h
    · exact ih (count + 1) _ (foldl_record_good seed v _ st h)

lemma scrapeVariants_complete (oracle : Oracle) (lang gl seed : String) (maxPV : Nat) :
    ∀ (variants : List String) (count : Nat) (st : ScrapeState),
      TraceComplete oracle lang gl st →
      TraceComplete oracle lang gl (scrapeVariants oracle lang gl seed maxPV variants count st) := by
  intro variants
  induction variants with
  | nil => intro count st h; exact h
  | cons v vs ih =>
    intro count st h
    rw [scrapeVariants]
    split
    · exact h
    · apply ih (count + 1)
      intro p hp sug hsug
      rcases List.mem_append.mp hp with hold | hnew
      · rw [trace_foldl_record] at hold
        exact foldl_record_seen_mono seed v _ _ st (h p hold sug hsug)
      · rw [List.mem_singleton.mp hnew]
        rw [List.mem_singleton.mp hnew] at hsug
        exact foldl_record_key_mem seed v _ st sug hsug

lemma run_good_complete (oracle : Oracle) (seeds : List String) (lang gl : String)
    (maxPV : Nat) (uL uW uQ uP uI uS : Bool) :
    GoodState (run_scraper oracle seeds lang gl maxPV uL uW uQ uP uI uS)
    ∧ TraceComplete oracle lang gl (run_scraper oracle seeds lang gl maxPV uL uW uQ uP uI uS) := by
  rw [run_scraper]
  have main : ∀ (l : List String) (st : ScrapeState),
      GoodState st → TraceComplete oracle lang gl st →
      GoodState (l.foldl
        (fun st seed => scrapeVariants oracle lang gl seed maxPV
          (generate_variants seed uL uW uQ uP uI uS) 0 st) st)
      ∧ TraceComplete oracle lang gl (l.foldl
        (fun st seed => scrapeVariants oracle lang gl seed maxPV
          (generate_variants seed uL uW uQ uP uI uS) 0 st) st) := by
    intro l
    induction l with
    | nil => intro st hg hc; exact ⟨hg, hc⟩
    | cons s0 rest ih =>
      intro st hg hc
      rw [List.foldl_cons]
      exact ih _ (scrapeVariants_good oracle lang gl s0 maxPV _ 0 st hg)
        (scrapeVariants_complete oracle lang gl s0 maxPV _ 0 st hc)
  exact main seeds ⟨[], [], []⟩ ⟨rfl, List.nodup_nil, by simp⟩ (by intro p hp; simp at hp)

end Scraper

namespace Scraper

/-- C2 (amended): in any run, the output rows have pairwise-distinct dedup
keys `seed ++ "|||" ++ suggestion` (hence never two rows with identical
`(seed, suggestion)`), and every suggestion returned by an issued fetch has
its key present among the output rows' keys.  Distinct `(seed, suggestion)`
pairs whose joined keys coincide — possible only when the seed or the
suggestion itself contains `"|||"` — are conflated by the code. -/
theorem dedup_unique_by_joined_key (oracle : Oracle) (seeds : List String)
    (lang gl : String) (maxPV : Nat) (uL uW uQ uP uI uS : Bool) :
    ((run_scraper oracle seeds lang gl maxPV uL uW uQ uP uI uS).results.map rowKey).Nodup
    ∧ (∀ p ∈ (run_scraper oracle seeds lang gl maxPV uL uW uQ uP uI uS).trace,
        ∀ sug ∈ fetch_suggestions oracle p.2 lang gl,
          p.1 ++ "|||" ++ sug
            ∈ (run_scraper oracle seeds lang gl maxPV uL uW uQ uP uI uS).results.map rowKey) := by
  obtain ⟨⟨h1, h2, _⟩, hc⟩ := run_good_complete oracle seeds lang gl maxPV uL uW uQ uP uI uS
  rw [← h1]
  exact ⟨h2, hc⟩

/-- Witness for C2's amended theorem at a concrete run. -/
theorem dedup_unique_by_joined_key_witness :
    ((run_scraper oracle0 ["a"] "en" "US" 1 false false false false false false).results.map
      rowKey).Nodup :=
  (dedup_unique_by_joined_key oracle0 ["a"] "en" "US" 1 false false false false false false).1

/-- Counterexample to C2 as stated: with seeds `"a"` and `"a|||b"`, the fetch
for seed `"a|||b"` returns the suggestion `"c"`, yet no row with the pair
`("a|||b", "c")` is output — its joined key collides with the earlier pair
`("a", "b|||c")`. -/
theorem dedup_pair_missing_row_cx :
    (run_scraper cxOracle ["a", "a|||b"] "en" "US" 1 false false false false false false).results
      = [⟨"a", "a", "a", "b|||c"⟩]
    ∧ ("a|||b", "a|||b")
        ∈ (run_scraper cxOracle ["a", "a|||b"] "en" "US" 1
            false false false false false false).trace
    ∧ "c" ∈ fetch_suggestions cxOracle "a|||b" "en" "US"
    ∧ (∀ r ∈ (run_scraper cxOracle ["a", "a|||b"] "en" "US" 1
          false false false false false false).results,
        ¬(r.seed = "a|||b" ∧ r.suggestion = "c")) := by
  decide

/-- C7: every output row echoes the variant that was actually sent in its
`query_sent` field (the `Row` structure fixes the four-field schema
`seed, variant, query_sent, suggestion` in source order). -/
theorem query_sent_eq_variant (oracle : Oracle) (seeds : List String) (lang gl : String)
    (maxPV : Nat) (uL uW uQ uP uI uS : Bool) :
    ∀ r ∈ (run_scraper oracle seeds lang gl maxPV uL uW uQ uP uI uS).results,
      r.query_sent = r.variant :=
  (run_good_complete oracle seeds lang gl maxPV uL uW uQ uP uI uS).1.2.2

/-- Witness for C7: a concrete run that outputs a row. -/
theorem query_sent_eq_variant_witness :
    (Row.mk "a" "a" "a" "s1").query_sent = (Row.mk "a" "a" "a" "s1").variant :=
  query_sent_eq_variant oracle0 ["a"] "en" "US" 1 false false false false false false
    ⟨"a", "a", "a", "s1"⟩ (by decide)

lemma fetch_okWrap (oracle : Oracle) (q l g : String) :
    fetch_suggestions (okWrap oracle) q l g = fetch_suggestions oracle q l g := rfl

lemma scrapeVariants_congr (o1 o2 : Oracle) (lang gl seed : String) (maxPV : Nat)
    (h : ∀ q, fetch_suggestions o1 q lang gl = fetch_suggestions o2 q lang gl) :
    ∀ (variants : List String) (count : Nat) (st : ScrapeState),
      scrapeVariants o1 lang gl seed maxPV variants count st
        = scrapeVariants o2 lang gl seed maxPV variants count st := by
  intro variants
  induction variants with
  | nil => intro count st; rfl
  | cons v vs ih =>
    intro count st
    rw [scrapeVariants, scrapeVariants]
    split
    · rfl
    · rw [h v]
      exact ih (count + 1) _

lemma run_scraper_congr (o1 o2 : Oracle) (seeds : List String) (lang gl : String)
    (maxPV : Nat) (uL uW uQ uP uI uS : Bool)
    (h : ∀ q, fetch_suggestions o1 q lang gl = fetch_suggestions o2 q lang gl) :
    run_scraper o1 seeds lang gl maxPV uL uW uQ uP uI uS
      = run_scraper o2 seeds lang gl maxPV uL uW uQ uP uI uS := by
  rw [run_scraper, run_scraper]
  have main : ∀ (l : List String) (st : ScrapeState),
      l.foldl (fun st seed => scrapeVariants o1 lang gl seed maxPV
        (generate_variants seed uL uW uQ uP uI uS) 0 st) st
      = l.foldl (fun st seed => scrapeVariants o2 lang gl seed maxPV
        (generate_variants seed uL uW uQ uP uI uS) 0 st) st := by
    intro l
    induction l with
    | nil => intro st; rfl
    | cons s0 rest ih =>
      intro st
      rw [List.foldl_cons, List.foldl_cons, scrapeVariants_congr o1 o2 lang gl s0 maxPV h]
      exact ih _
  exact main seeds ⟨[], [], []⟩

/-- C3: a failing fetch (transport error or bad shape) yields the empty
suggestion list, and the whole run proceeds exactly as it would with an
oracle that never fails and returns those same (possibly empty) suggestion
lists — no failure aborts the run or loses the rest of the result set. -/
theorem fetch_fail_open (oracle : Oracle) (seeds : List String) (lang gl : String)
    (maxPV : Nat) (uL uW uQ uP uI uS : Bool) :
    (∀ q e, oracle q lang gl = Except.error e → fetch_suggestions oracle q lang gl = [])
    ∧ run_scraper oracle seeds lang gl maxPV uL uW uQ uP uI uS
        = run_scraper (okWrap oracle) seeds lang gl maxPV uL uW uQ uP uI uS := by
  constructor
  · intro q e he
    rw [fetch_suggestions, he]
  · exact run_scraper_congr oracle (okWrap oracle) seeds lang gl maxPV uL uW uQ uP uI uS
      (fun q => (fetch_okWrap oracle q lang gl).symm)

/-- Witness for C3 at a concrete failing oracle. -/
theorem fetch_fail_open_witness :
    fetch_suggestions errOracle "hey" "en" "US" = []
    ∧ run_scraper errOracle ["hey"] "en" "US" 1 false false false false false false
        = run_scraper (okWrap errOracle) ["hey"] "en" "US" 1 false false false false false false := by
  have h := fetch_fail_open errOracle ["hey"] "en" "US" 1 false false false false false false
  exact ⟨h.1 "hey" "boom" rfl, h.2⟩

end Scraper

namespace Scraper

lemma mem_generate_of_letter (seed : String) (uW uQ uP uI uS : Bool) (L x : String)
    (hL : L ∈ ALPHABET) (hx : x ∈ letterVariants seed uW uP uI uS L) :
    x ∈ generate_variants seed true uW uQ uP uI uS := by
  rw [generate_variants, List.mem_dedup]
  have hmem : x ∈ ALPHABET.flatMap (letterVariants seed uW uP uI uS) :=
    List.mem_flatMap.mpr ⟨L, hL, hx⟩
  simp [List.mem_append, hmem]

lemma mem_generate_of_wildcard (seed : String) (uL uQ uP uI uS : Bool) (x : String)
    (hx : x ∈ wildcardVariants seed uP uI uS) :
    x ∈ generate_variants seed uL true uQ uP uI uS := by
  rw [generate_variants, List.mem_dedup]
  simp [List.mem_append, hx]

lemma mem_generate_of_question (seed : String) (uL uW uP uI uS : Bool) (qw x : String)
    (hq : qw ∈ QUESTION_WORDS) (hx : x ∈ questionVariants seed uW uP uS qw) :
    x ∈ generate_variants seed uL uW true uP uI uS := by
  rw [generate_variants, List.mem_dedup]
  have hmem : x ∈ QUESTION_WORDS.flatMap (questionVariants seed uW uP uS) :=
    List.mem_flatMap.mpr ⟨qw, hq, hx⟩
  simp [List.mem_append, hmem]

/-- C9: the seed itself is always a member of its own generated variant set,
whatever the six option flags are. -/
theorem seed_always_included (seed : String) (uL uW uQ uP uI uS : Bool) :
    seed ∈ generate_variants seed uL uW uQ uP uI uS := by
  simp [generate_variants]

/-- C4: with question words enabled, every question word `qw` contributes the
separator-free concatenations `qw ++ seed` (when the prefix position is on)
and `seed ++ qw` (when the suffix position is on); for the seed "ok google"
with only questions and suffix on, the generated list is exactly the seed
followed by the 13 concatenations. -/
theorem question_word_concatenation (seed : String) (uL uW uP uI uS : Bool) (qw : String)
    (hq : qw ∈ QUESTION_WORDS) :
    (uP = true → qw ++ seed ∈ generate_variants seed uL uW true uP uI uS)
    ∧ (uS = true → seed ++ qw ∈ generate_variants seed uL uW true uP uI uS)
    ∧ generate_variants "ok google" false false true false false true
        = "ok google" :: QUESTION_WORDS.map (fun w => "ok google" ++ w) := by
  refine ⟨?_, ?_, by decide⟩
  · intro hP
    apply mem_generate_of_question seed uL uW uP uI uS qw _ hq
    simp [questionVariants, CONNECTORS, hP]
  · intro hS
    apply mem_generate_of_question seed uL uW uP uI uS qw _ hq
    simp [questionVariants, CONNECTORS, hS]

/-- Witness for C4 at seed "ok google" and question word "how". -/
theorem question_word_concatenation_witness :
    "ok google" ++ "how" ∈ generate_variants "ok google" false false true false false true :=
  (question_word_concatenation "ok google" false false false false true "how" (by decide)).2.1 rfl

lemma letterVariants_infix_noop (seed : String) (uW uP uS : Bool)
    (hn : ¬ (1 < (pySplit ' ' seed).length)) :
    letterVariants seed uW uP true uS = letterVariants seed uW uP false uS := by
  funext letter
  simp [letterVariants, hn]

lemma gen_infix_noop (seed : String) (uL uW uQ uP uS : Bool)
    (h : (pySplit ' ' seed).length ≤ 1) :
    generate_variants seed uL uW uQ uP true uS = generate_variants seed uL uW uQ uP false uS := by
  have hn : ¬ (1 < (pySplit ' ' seed).length) := by omega
  rw [generate_variants, generate_variants, letterVariants_infix_noop seed uW uP uS hn]
  simp [wildcardVariants, hn]

/-- C5: infix insertion is a silent no-op on a single-word seed — the
generated set coincides with the infix-disabled one; and on a multi-word
seed with only wildcards and infix enabled the set is exactly the seed plus
the single variant `firstWord ++ " * " ++ restOfWords`. -/
theorem infix_guard (seed : String) :
    (∀ uL uW uQ uP uS, (pySplit ' ' seed).length ≤ 1 →
      generate_variants seed uL uW uQ uP true uS = generate_variants seed uL uW uQ uP false uS)
    ∧ (1 < (pySplit ' ' seed).length →
      ∀ x, x ∈ generate_variants seed false true false false true false ↔
        (x = seed ∨ x = (pySplit ' ' seed).head! ++ " * "
          ++ String.intercalate " " (pySplit ' ' seed).tail)) := by
  constructor
  · intro uL uW uQ uP uS h
    exact gen_infix_noop seed uL uW uQ uP uS h
  · intro h x
    rw [generate_variants, List.mem_dedup]
    simp [wildcardVariants, h, List.mem_append]

/-- Witness for C5 at a single-word and a two-word seed. -/
theorem infix_guard_witness :
    generate_variants "hey" true true true true true true
      = generate_variants "hey" true true true true false true
    ∧ "hey google" ∈ generate_variants "hey google" false true false false true false :=
  ⟨(infix_guard "hey").1 true true true true true (by decide),
   ((infix_guard "hey google").2 (by decide) "hey google").mpr (Or.inl rfl)⟩

end Scraper

namespace Scraper

lemma splitChar_no_sep (c : Char) :
    ∀ (l : List Char), (∀ a ∈ l, a ≠ c) → splitChar c l = [l] := by
  intro l
  induction l with
  | nil => intro h; rfl
  | cons a as ih =>
    intro h
    have e := ih (fun x hx => h x (List.mem_cons.mpr (Or.inr hx)))
    rw [splitChar, e]
    simp [h a (List.mem_cons.mpr (Or.inl rfl))]

/-- C10: multi-word detection in `generate_variants` splits on the single
space character only: a seed whose words are separated by any other
whitespace splits into one token, so infix contributes nothing even when
enabled, while letter, wildcard and question variants are still produced. -/
theorem split_on_single_space_only (seed : String) (h : ∀ c ∈ seed.data, c ≠ ' ')
    (uL uW uQ uP uS : Bool) :
    pySplit ' ' seed = [seed]
    ∧ generate_variants seed uL uW uQ uP true uS = generate_variants seed uL uW uQ uP false uS
    ∧ seed ++ " " ++ "a" ∈ generate_variants seed true false false false true true
    ∧ seed ++ " *" ∈ generate_variants seed false true false false true true
    ∧ seed ++ "how" ∈ generate_variants seed false false true false true true := by
  have hsplit : pySplit ' ' seed = [seed] := by
    rw [pySplit, splitChar_no_sep ' ' seed.data h]
    rfl
  have hlen : (pySplit ' ' seed).length ≤ 1 := by rw [hsplit]; simp
  refine ⟨hsplit, gen_infix_noop seed uL uW uQ uP uS hlen, ?_, ?_, ?_⟩
  · apply mem_generate_of_letter seed false false false true true "a" _ (by decide)
    simp [letterVariants]
  · apply mem_generate_of_wildcard seed false false false true true
    simp [wildcardVariants]
  · apply mem_generate_of_question seed false false false true true "how" _ (by decide)
    simp [questionVariants, CONNECTORS]

/-- Witness for C10 at the tab-separated seed. -/
theorem split_on_single_space_only_witness :
    pySplit ' ' "hey\tgoogle" = ["hey\tgoogle"]
    ∧ generate_variants "hey\tgoogle" true true true true true true
        = generate_variants "hey\tgoogle" true true true true false true := by
  have h := split_on_single_space_only "hey\tgoogle" (by decide) true true true true true
  exact ⟨h.1, h.2.1⟩

/-- C6: the button handler keeps exactly the trimmed non-blank seed lines,
and when nothing remains it rejects the run before the collector is ever
invoked (result `none`: no run state, no fetch). -/
theorem empty_seed_rejection (oracle : Oracle) (seeds_input lang gl : String) (maxPV : Nat)
    (uL uW uQ uP uI uS : Bool) :
    (∀ s, s ∈ parse_seeds seeds_input ↔
      (s ≠ "" ∧ ∃ line ∈ pySplit '\n' seeds_input, pyStrip line = s))
    ∧ (parse_seeds seeds_input = [] →
      run_scraper_button oracle seeds_input lang gl maxPV uL uW uQ uP uI uS = Option.none) := by
  constructor
  · intro s
    rw [parse_seeds]
    simp only [List.mem_filter, List.mem_map, bne_iff_ne, ne_eq]
    tauto
  · intro h
    rw [run_scraper_button, if_pos h]

/-- Witness for C6 on a whitespace-only input. -/
theorem empty_seed_rejection_witness :
    run_scraper_button oracle0 "  \n\t \n" "en" "US" 1 false false false false false false
      = Option.none :=
  (empty_seed_rejection oracle0 "  \n\t \n" "en" "US" 1 false false false false false false).2
    (by decide)

/-- C8: for seed "hey google" with letters and suffix only, the generated
set is exactly the bare seed plus "hey google a" … "hey google z" (27
entries); with `max_per_variant = 5` exactly 5 fetches occur for that seed,
namely the first 5 variants of the stable enumeration. -/
theorem hey_google_letters_scenario :
    generate_variants "hey google" true false false false false true
      = "hey google" :: ALPHABET.map (fun L => "hey google " ++ L)
    ∧ (generate_variants "hey google" true false false false false true).length = 27
    ∧ (run_scraper oracle0 ["hey google"] "en" "US" 5 true false false false false true).trace
        = ((generate_variants "hey google" true false false false false true).take 5).map
            (fun v => ("hey google", v))
    ∧ ((run_scraper oracle0 ["hey google"] "en" "US" 5
          true false false false false true).trace).length = 5 := by
  refine ⟨by decide, by decide, by decide, by decide⟩

end Scraper
